import Mathlib

/-!
Verification of the spotman core (`spotman_core.py`) against its
natural-language specification.

The Python source is shallowly embedded: every remote AWS call is an input
supplied through an environment (a function or an `Except` value recording the
call's outcome), side effects (remote calls issued, sleeps performed, the
manager's region mutation) are returned explicitly as traces, Python `float`
prices and delays are modelled as `ℚ`, Python string truthiness is modelled by
comparison with the empty value, and `base64` encoding of user data is
modelled as the identity on the payload.  Instance-type and availability-zone
strings in the price oracle are modelled by an arbitrary linearly ordered type
(Python compares strings lexicographically by code point, which is a linear
order).
-/

/- ---------------------------------------------------------------- -/
/-! ## Error classifier (`AWSErrorHandler`, lines 23-143)            -/
/- ---------------------------------------------------------------- -/

/-- `AWSErrorHandler.RETRYABLE_ERRORS` (lines 27-35); the Python source lists
`ServiceUnavailable` twice inside a set literal, which is kept here verbatim
(membership is unaffected). -/
def RETRYABLE_ERRORS : List String :=
  ["Throttling", "RequestLimitExceeded", "ServiceUnavailable", "InternalError",
   "InternalFailure", "ServiceUnavailable", "SlowDown"]

/-- `AWSErrorHandler.PERMANENT_ERRORS` (lines 38-55). -/
def PERMANENT_ERRORS : List String :=
  ["InvalidParameterValue", "InvalidInstanceID.NotFound", "InvalidInstanceID.Malformed",
   "UnauthorizedOperation", "InvalidUserID.NotFound", "InvalidGroupId.NotFound",
   "InvalidKeyPair.NotFound", "InvalidAMIID.NotFound", "InvalidSubnetID.NotFound",
   "InvalidVpcID.NotFound", "InvalidSecurityGroupID.NotFound", "InstanceLimitExceeded",
   "InsufficientInstanceCapacity", "InvalidInstanceType", "InvalidAvailabilityZone",
   "InvalidParameterCombination"]

/-- `AWSErrorHandler.should_retry` (lines 57-60). -/
def should_retry (errorCode : String) : Bool :=
  RETRYABLE_ERRORS.contains errorCode

/-- `AWSErrorHandler.is_permanent_error` (lines 62-65). -/
def is_permanent_error (errorCode : String) : Bool :=
  PERMANENT_ERRORS.contains errorCode

/-- `AWSErrorHandler.handle_aws_error` (lines 67-94): extracts the error code
and returns whether to retry; the permanent/unknown distinction only changes
the diagnostic line printed, both return `False`. -/
def handle_aws_error (errorCode : String) : Bool :=
  if should_retry errorCode then true
  else if is_permanent_error errorCode then false
  else false

/-- Outcome of one attempt of a wrapped remote operation: success, a
`ClientError` carrying an AWS error code, or one of the
`NoCredentialsError`/`EndpointConnectionError`/`ConnectTimeoutError`
network/credential failures. -/
inductive CallOutcome (α : Type) where
  | ok (value : α)
  | clientError (code : String)
  | networkError
deriving DecidableEq

/-- The exception finally propagated out of the retry wrapper. -/
inductive RunError where
  | client (code : String)
  | network
deriving DecidableEq

/-- Result of running the retry wrapper: the value returned or error raised,
the list of back-off sleeps performed (in order), and the number of attempts
(calls of the wrapped function) made. -/
structure RunResult (α : Type) where
  result : Except RunError α
  sleeps : List ℚ
  attempts : ℕ

/-- The loop body of `AWSErrorHandler.retry_on_aws_error` (lines 105-141):
`for attempt in range(max_retries + 1)`.  `attempt` is the current loop index
and `rem` the number of remaining iterations (`max_retries + 1 - attempt`);
the base case `rem = 0` is unreachable from `retry_on_aws_error` below, which
starts with `rem = max_retries + 1`.  The environment `call` gives the outcome
of the wrapped function on each attempt. -/
def retryAux (call : ℕ → CallOutcome α) (max_retries : ℕ) (delay : ℚ) :
    ℕ → ℕ → RunResult α
  | _, 0 => ⟨Except.error RunError.network, [], 0⟩
  | attempt, rem + 1 =>
    match call attempt with
    | CallOutcome.ok v => ⟨Except.ok v, [], 1⟩
    | CallOutcome.clientError code =>
      if attempt == max_retries then
        ⟨Except.error (RunError.client code), [], 1⟩
      else if handle_aws_error code then
        let r := retryAux call max_retries delay (attempt + 1) rem
        ⟨r.result, delay * 2 ^ attempt :: r.sleeps, r.attempts + 1⟩
      else
        ⟨Except.error (RunError.client code), [], 1⟩
    | CallOutcome.networkError =>
      if attempt == max_retries then
        ⟨Except.error RunError.network, [], 1⟩
      else
        let r := retryAux call max_retries delay (attempt + 1) rem
        ⟨r.result, delay * 2 ^ attempt :: r.sleeps, r.attempts + 1⟩

/-- `AWSErrorHandler.retry_on_aws_error` (lines 96-143) applied to a wrapped
operation whose per-attempt outcomes are `call`. -/
def retry_on_aws_error (max_retries : ℕ) (delay : ℚ) (call : ℕ → CallOutcome α) :
    RunResult α :=
  retryAux call max_retries delay 0 (max_retries + 1)

/-- Whether an attempt's outcome makes the wrapper retry when further
attempts remain: a `ClientError` retries exactly when `handle_aws_error`
says so (line 121), a network/credential failure always retries
(lines 129-136), success never does. -/
def retryableOutcome : CallOutcome α → Bool
  | CallOutcome.ok _ => false
  | CallOutcome.clientError code => handle_aws_error code
  | CallOutcome.networkError => true

/-- The exception an attempt's outcome raises, if any. -/
def outcomeErr : CallOutcome α → Option RunError
  | CallOutcome.ok _ => none
  | CallOutcome.clientError code => some (RunError.client code)
  | CallOutcome.networkError => some RunError.network

/- ---------------------------------------------------------------- -/
/-! ## Instance resolver (lines 742-845)                             -/
/- ---------------------------------------------------------------- -/

/-- The fields of an EC2 instance record used by the resolver and the
lifecycle operations. -/
structure Inst where
  instanceId : String
  state : String
  spotInstanceRequestId : Option String
deriving DecidableEq

/-- The manager state the resolver reads and mutates: the current ("home")
region and the region names listed under `regions` in `regions.yaml`, in
directory order (`self.regions_config.get('regions', {}).keys()`).  The
`ec2_client`/`ec2` handles are scoped to `region` and recreated exactly when
`region` is reassigned (lines 830-832), so the region alone represents the
region-scoped state. -/
structure Mgr where
  region : String
  configRegions : List String
deriving DecidableEq

/-- `other_regions` (line 819): every configured region except the current
one, in directory order. -/
def otherRegions (mgr : Mgr) : List String :=
  mgr.configRegions.filter (fun r => r != mgr.region)

/-- The fast-path test of `_resolve_instance_identifier` (line 801):
`identifier.startswith('i-') and len(identifier) >= 10`.  Python
`startswith('i-')` holds exactly when the first two characters are `i`, `-`. -/
def looks_like_instance_id (identifier : String) : Bool :=
  identifier.data.take 2 == ['i', '-'] && decide (10 ≤ identifier.length)

/-- Result of one `resolve` call: the resolved instance id (or `none`), the
regions whose instances were listed (in query order), the manager's region
after the call, and the ambiguity candidates printed, as
(instance id, state, region) triples (lines 812-814 and 836-838). -/
structure ResolveOutcome where
  result : Option String
  queried : List String
  finalRegion : String
  reported : List (String × String × String)
deriving DecidableEq

/-- Intermediate result of the loop over `other_regions`
(lines 821-842). -/
structure SearchResult where
  result : Option String
  queried : List String
  switchTo : Option String
  reported : List (String × String × String)
deriving DecidableEq

/-- The `for region in other_regions` loop of `_resolve_instance_identifier`
(lines 821-842).  `listing r` is the outcome of
`_resolve_instance_in_region(identifier, include_terminated)` in region `r`
(that helper already maps a `ClientError` to the empty list, lines 787-788,
and the surrounding `except Exception: continue` likewise turns a failed
region into "no match there"). -/
def search_other_regions (listing : String → List Inst) :
    List String → SearchResult
  | [] => ⟨none, [], none, []⟩
  | r :: rs =>
    match listing r with
    | [] =>
      let o := search_other_regions listing rs
      ⟨o.result, r :: o.queried, o.switchTo, o.reported⟩
    | [inst] => ⟨some inst.instanceId, [r], some r, []⟩
    | insts => ⟨none, [r], none, insts.map (fun i => (i.instanceId, i.state, r))⟩

/-- `_resolve_instance_identifier` (lines 790-845).  `listing r` is the
result of `_resolve_instance_in_region` for this identifier in region `r`. -/
def resolve_instance_identifier (mgr : Mgr) (identifier : String)
    (listing : String → List Inst) : ResolveOutcome :=
  if looks_like_instance_id identifier then
    ⟨some identifier, [], mgr.region, []⟩
  else
    match listing mgr.region with
    | [] =>
      let o := search_other_regions listing (otherRegions mgr)
      ⟨o.result, mgr.region :: o.queried, o.switchTo.getD mgr.region, o.reported⟩
    | [inst] => ⟨some inst.instanceId, [mgr.region], mgr.region, []⟩
    | insts =>
      ⟨none, [mgr.region], mgr.region,
        insts.map (fun i => (i.instanceId, i.state, mgr.region))⟩

/- ---------------------------------------------------------------- -/
/-! ## Price oracle (`get_spot_prices`, lines 298-339)               -/
/- ---------------------------------------------------------------- -/

/-- One row of the `SpotPriceHistory` response, after the `float(SpotPrice)`
conversion.  Instance types and availability zones are opaque strings that
Python compares lexicographically by code point; they are modelled by an
arbitrary linearly ordered type `κ`.  Timestamps are modelled as `ℕ`
(`datetime` values under their total order). -/
structure PriceRow (κ : Type) where
  instanceType : κ
  availabilityZone : κ
  spotPrice : ℚ
  timestamp : ℕ
deriving DecidableEq

/-- The dict key `(item['InstanceType'], item['AvailabilityZone'])`
(line 326). -/
def priceKey {κ : Type} (r : PriceRow κ) : κ × κ :=
  (r.instanceType, r.availabilityZone)

/-- The `for item in response` loop of `get_spot_prices` (lines 324-333):
`latest_prices` is a dict keyed by `priceKey`; a row is inserted only
`if key not in latest_prices`, so the first row of the response wins per key;
`acc` is the dict's value list in insertion order. -/
def latest_prices_loop {κ : Type} [DecidableEq κ] :
    List (PriceRow κ) → List (PriceRow κ) → List (PriceRow κ)
  | acc, [] => acc
  | acc, r :: rs =>
    if acc.any (fun x => decide (priceKey x = priceKey r)) then
      latest_prices_loop acc rs
    else
      latest_prices_loop (acc ++ [r]) rs

/-- The sort key of line 335: Python tuple comparison
`(x['instance_type'], x['availability_zone'])` is lexicographic. -/
def rowLe {κ : Type} [LinearOrder κ] (a b : PriceRow κ) : Prop :=
  a.instanceType < b.instanceType ∨
    (a.instanceType = b.instanceType ∧ a.availabilityZone ≤ b.availabilityZone)

instance {κ : Type} [LinearOrder κ] : DecidableRel (rowLe (κ := κ)) :=
  fun a b => by unfold rowLe; infer_instance

instance {κ : Type} [LinearOrder κ] : IsTotal (PriceRow κ) rowLe where
  total a b := by
    unfold rowLe
    rcases lt_trichotomy a.instanceType b.instanceType with h | h | h
    · exact Or.inl (Or.inl h)
    · rcases le_total a.availabilityZone b.availabilityZone with h2 | h2
      · exact Or.inl (Or.inr ⟨h, h2⟩)
      · exact Or.inr (Or.inr ⟨h.symm, h2⟩)
    · exact Or.inr (Or.inl h)

instance {κ : Type} [LinearOrder κ] : IsTrans (PriceRow κ) rowLe where
  trans a b c hab hbc := by
    unfold rowLe at *
    rcases hab with h1 | ⟨h1, h1z⟩ <;> rcases hbc with h2 | ⟨h2, h2z⟩
    · exact Or.inl (h1.trans h2)
    · exact Or.inl (h2 ▸ h1)
    · exact Or.inl (h1 ▸ h2)
    · exact Or.inr ⟨h1.trans h2, h1z.trans h2z⟩

/-- `get_spot_prices` (lines 298-339), from the `SpotPriceHistory` rows of the
provider's response to the returned list: first-row-per-key retention followed
by `sorted(..., key=(instance_type, availability_zone))`.  Python's `sorted`
is a stable sort; on the retained rows all keys are distinct, so any sort
agreeing with the key order yields the same list, and Mathlib's stable
`insertionSort` is used.  The surrounding `try`/`except ClientError` (which
returns `[]`) and the request-building code are outside this model. -/
def get_spot_prices {κ : Type} [LinearOrder κ] (rows : List (PriceRow κ)) :
    List (PriceRow κ) :=
  List.insertionSort rowLe (latest_prices_loop [] rows)

/- ---------------------------------------------------------------- -/
/-! ## Create (`_instance_name_exists` / `create_instance`)          -/
/- ---------------------------------------------------------------- -/

/-- `_instance_name_exists` (lines 742-763): `resp` is the outcome of the
`describe_instances` call filtered by `tag:Name` = name and the
non-terminated state set, given as the list of reservations, each a list of
instances; a `ClientError` is caught and reported as `False` (line 762-763). -/
def instance_name_exists (resp : Except Unit (List (List Inst))) : Bool :=
  match resp with
  | Except.error _ => false
  | Except.ok reservations => reservations.any (fun insts => !insts.isEmpty)

/-- The profile dict as read by `create_instance` (lines 875-895): every
field models `profile.get(...)` with `none` for an absent key.  `user_data`
is the result of `_get_user_data_script` (lines 422-438: the value when it is
a string, else `None`).  `spot_price` is a Python float, modelled as `ℚ`. -/
structure Profile where
  instance_type : Option String
  ami_id : Option String
  os_type : Option String
  key_name : Option String
  security_groups : List String
  subnet_id : Option String
  user_data : Option String
  spot_instance : Option Bool
  hibernation_enabled : Option Bool
  root_volume_size : Option ℕ
  root_volume_type : Option String
  root_volume_encrypted : Option Bool
  update_os : Option Bool
  spot_price : Option ℚ
  tags : List (String × String)
  ami_name : Option String
deriving DecidableEq

/-- Lines 889-891 and 1005: a call-time `spot_price` override is written into
the profile dict when it is not `None`, and the spot-options code re-reads
`profile.get('spot_price')`. -/
def effective_spot_price (profile : Profile) (spotPriceOverride : Option ℚ) :
    Option ℚ :=
  match spotPriceOverride with
  | some p => some p
  | none => profile.spot_price

/-- The `SpotOptions` dict of the launch request (lines 998-1007).
`maxPrice` carries the price whose `str()` becomes `MaxPrice`. -/
structure SpotOptions where
  spotInstanceType : String
  instanceInterruptionBehavior : String
  maxPrice : Option ℚ
deriving DecidableEq

/-- The `InstanceMarketOptions` dict (lines 1009-1012). -/
structure MarketOptions where
  marketType : String
  spotOptions : SpotOptions
deriving DecidableEq

/-- The `Ebs` part of the block device mapping (lines 918-928). -/
structure EbsSpec where
  volumeSize : ℕ
  volumeType : String
  deleteOnTermination : Bool
  encrypted : Bool
deriving DecidableEq

/-- The `run_instances` keyword dict (lines 975-1016).  Optional dict keys
are `Option` fields; `SecurityGroups` is present exactly when the list is
nonempty (line 987-988), so the list itself carries that information;
`hibernationConfigured` records the presence of
`HibernationOptions = {'Configured': True}` (lines 1015-1016). -/
structure RunParams where
  imageId : String
  instanceType : String
  blockDeviceMappings : List EbsSpec
  dryRun : Bool
  keyName : Option String
  securityGroups : List String
  subnetId : Option String
  userData : Option String
  placementAz : Option String
  instanceMarketOptions : Option MarketOptions
  hibernationConfigured : Bool
  tags : List (String × String)
deriving DecidableEq

/-- Python dict assignment `tags[k] = v` on a dict represented as its ordered
item list: an existing key keeps its position and gets the new value, a new
key is appended. -/
def setTag (ts : List (String × String)) (k v : String) : List (String × String) :=
  if ts.any (fun p => p.1 == k) then
    ts.map (fun p => if p.1 == k then (k, v) else p)
  else ts ++ [(k, v)]

/-- The OS-update preamble of the user data (lines 932-938). -/
def updatePreamble (osType : String) : String :=
  if osType == "ubuntu" then "#!/bin/bash\napt-get update && apt-get upgrade -y\n"
  else if osType == "amazon-linux" then "#!/bin/bash\nyum update -y\n"
  else if osType == "centos" then "#!/bin/bash\nyum update -y\n"
  else ""

/-- Assembly of `run_params` (lines 874-1016) from the profile, the defaults
of lines 875-887, and the already-resolved AMI id / subnet / key.
`createdAt` stands for the `time.strftime(...)` timestamp (line 959).
Python truthiness: `if spot_price:` (line 1006) is false for `None` and for
`0.0`, modelled by the comparison with `0`; the `str()` conversion of
`MaxPrice` and the base64 encoding of the user data are modelled as
identities. -/
def build_run_params (profile : Profile) (profileName instanceName : String)
    (appClass : Option String) (effSpotPrice : Option ℚ) (dryRun : Bool)
    (availabilityZone : Option String) (amiId : String)
    (subnetId : Option String) (keyName : Option String)
    (createdAt : String) : RunParams :=
  let instanceType := profile.instance_type.getD "t3.micro"
  let osType := profile.os_type.getD "ubuntu"
  let spotInstance := profile.spot_instance.getD false
  let hibernationEnabled := profile.hibernation_enabled.getD false
  let rootVolumeSize := profile.root_volume_size.getD 8
  let rootVolumeType := profile.root_volume_type.getD "gp3"
  let rootVolumeEncrypted := profile.root_volume_encrypted.getD false
  let updateOs := profile.update_os.getD false
  let blockDeviceMappings :=
    [EbsSpec.mk rootVolumeSize rootVolumeType true rootVolumeEncrypted]
  let pre := if updateOs then updatePreamble osType else ""
  let finalUserData :=
    match profile.user_data with
    | some ud => if pre == "" then ud else pre ++ "\n" ++ ud
    | none => pre
  let encodedUserData := if finalUserData == "" then none else some finalUserData
  let tags0 := setTag profile.tags "Name" instanceName
  let tags1 :=
    match appClass with
    | some c => setTag tags0 "ApplicationClass" c
    | none => tags0
  let tags2 := setTag tags1 "CreatedBy" "spotman"
  let tags3 := setTag tags2 "CreatedAt" createdAt
  let tags4 := setTag tags3 "Profile" profileName
  let tags5 := if spotInstance then setTag tags4 "InstanceType" "spot" else tags4
  let tags6 :=
    if hibernationEnabled then setTag tags5 "HibernationEnabled" "true" else tags5
  let marketOptions :=
    if spotInstance then
      some (MarketOptions.mk "spot"
        (SpotOptions.mk
          (if hibernationEnabled then "persistent" else "one-time")
          (if hibernationEnabled then "hibernate" else "terminate")
          (match effSpotPrice with
           | some p => if p = 0 then none else some p
           | none => none)))
    else none
  { imageId := amiId
    instanceType := instanceType
    blockDeviceMappings := blockDeviceMappings
    dryRun := dryRun
    keyName := keyName
    securityGroups := profile.security_groups
    subnetId := subnetId
    userData := encodedUserData
    placementAz := availabilityZone
    instanceMarketOptions := marketOptions
    hibernationConfigured := hibernationEnabled
    tags := tags6 }

/-- The mutating remote calls appearing in the body of `create_instance`:
only `run_instances` (line 1039) mutates account state (the waiter and the
SSH-config update issue no mutating AWS call). -/
inductive MutCall where
  | runInstances (params : RunParams)
deriving DecidableEq

/-- Environment of one `create_instance` call: the outcomes of the remote
calls it may issue.  `nameResp` feeds `_instance_name_exists`;
`profileLoaded` is the outcome of `load_profile` (`none` = profile not found,
raising `FileNotFoundError`, caught by the outer `except Exception`);
`amiLookup` is the outcome of `_get_latest_ami` when invoked (any
`ValueError`/`ClientError` it raises is caught and yields `None`);
`subnetLookup` is the outcome of `_get_default_vpc_subnet`; `regionKey` is
`region_config.get('key_name') or region_config.get('default_key')` for the
current region (lines 907-910), `none` when the regions config is absent or
has no key; `runResult` is the outcome of `run_instances`. -/
structure CreateEnv where
  nameResp : Except Unit (List (List Inst))
  profileLoaded : Option Profile
  amiLookup : Except Unit String
  subnetLookup : Option String
  regionKey : Option String
  runResult : Except Unit String
  createdAt : String

/-- `create_instance` (lines 847-1074), returning the result (`Option`
instance id) and the trace of mutating remote calls issued.  Every failure
path of the source returns `None` after printing a diagnostic; paths that
return before line 1039 issue no mutating call. -/
def create_instance (env : CreateEnv) (profileName instanceName : String)
    (appClass : Option String) (spotPriceOverride : Option ℚ) (dryRun : Bool)
    (availabilityZone : Option String) : Option String × List MutCall :=
  if instance_name_exists env.nameResp then (none, [])
  else
    match env.profileLoaded with
    | none => (none, [])
    | some profile =>
      let effSpotPrice := effective_spot_price profile spotPriceOverride
      let amiRes : Except Unit String :=
        match profile.ami_id with
        | some a => Except.ok a
        | none => env.amiLookup
      match amiRes with
      | Except.error _ => (none, [])
      | Except.ok amiId =>
        let subnetRes : Except Unit (Option String) :=
          match profile.subnet_id, availabilityZone with
          | none, some _ =>
            (match env.subnetLookup with
             | some s => Except.ok (some s)
             | none => Except.error ())
          | s, _ => Except.ok s
        match subnetRes with
        | Except.error _ => (none, [])
        | Except.ok subnetId =>
          let keyName :=
            match profile.key_name with
            | some k => some k
            | none => env.regionKey
          match keyName with
          | none => (none, [])
          | some key =>
            let params := build_run_params profile profileName instanceName
              appClass effSpotPrice dryRun availabilityZone amiId subnetId
              (some key) env.createdAt
            if dryRun then (none, [])
            else
              match env.runResult with
              | Except.ok instanceId =>
                (some instanceId, [MutCall.runInstances params])
              | Except.error _ => (none, [MutCall.runInstances params])

/- ---------------------------------------------------------------- -/
/-! ## Terminate (`terminate_instance`, lines 1191-1236)             -/
/- ---------------------------------------------------------------- -/

/-- The remote calls issued by the body of `terminate_instance` after
resolution (the resolver's own listing queries are traced separately by
`ResolveOutcome.queried`). -/
inductive TermCall where
  | describeInstances (instanceId : String)
  | cancelSpotRequests (requestId : String)
  | terminateInstances (instanceId : String)
deriving DecidableEq

/-- Environment of one `terminate_instance` call: the outcome of the
`describe_instances` on the resolved id, of `cancel_spot_instance_requests`,
and of `terminate_instances` (each `Except.error` is a `ClientError`). -/
structure TermEnv where
  describeResp : Except Unit Inst
  cancelResult : Except Unit Unit
  terminateResult : Except Unit Unit

/-- `terminate_instance` (lines 1191-1236), returning the success flag and
the trace of remote calls issued, in order.  The cancel call's failure is
caught by the inner `try` (lines 1220-1226) and only logged; the Name-tag
scan (lines 1211-1214) only affects the printed message. -/
def terminate_instance (mgr : Mgr) (identifier : String)
    (listing : String → List Inst) (env : TermEnv) : Bool × List TermCall :=
  match (resolve_instance_identifier mgr identifier listing).result with
  | none => (false, [])
  | some instanceId =>
    match env.describeResp with
    | Except.error _ => (false, [TermCall.describeInstances instanceId])
    | Except.ok inst =>
      let cancelCalls :=
        match inst.spotInstanceRequestId with
        | some requestId => [TermCall.cancelSpotRequests requestId]
        | none => []
      let trace := TermCall.describeInstances instanceId ::
        cancelCalls ++ [TermCall.terminateInstances instanceId]
      match env.terminateResult with
      | Except.ok _ => (true, trace)
      | Except.error _ => (false, trace)

/- ---------------------------------------------------------------- -/
/-! ## AMI selection (`_get_latest_ami`, lines 440-522)              -/
/- ---------------------------------------------------------------- -/

/-- One entry of the `describe_images` filter table: the values of the
`name`, `owner-id`, `state`, `architecture`, `virtualization-type` and
`root-device-type` filters. -/
structure AmiFilter where
  nameValues : List String
  ownerId : String
  state : String
  architecture : String
  virtualizationType : String
  rootDeviceType : String
deriving DecidableEq

/-- The built-in ubuntu filter (lines 472-481). -/
def ubuntu_default_filter : AmiFilter :=
  ⟨["ubuntu/images/hvm-ssd/ubuntu-jammy-22.04-amd64-server-*"], "099720109477",
   "available", "x86_64", "hvm", "ebs"⟩

/-- The built-in amazon-linux filter (lines 482-491). -/
def amazon_linux_default_filter : AmiFilter :=
  ⟨["amzn2-ami-hvm-*-x86_64-gp2"], "137112412989",
   "available", "x86_64", "hvm", "ebs"⟩

/-- The built-in centos filter (lines 492-501). -/
def centos_default_filter : AmiFilter :=
  ⟨["CentOS Linux 7 x86_64 HVM EBS *"], "679593333241",
   "available", "x86_64", "hvm", "ebs"⟩

/-- The custom-pattern ubuntu filter (lines 456-468). -/
def ubuntu_custom_filter (pat : String) : AmiFilter :=
  ⟨[pat], "099720109477", "available", "x86_64", "hvm", "ebs"⟩

/-- The default `ami_filters` table (lines 470-502) together with the
`os_type not in ami_filters` check (lines 504-505): `none` models the
`ValueError` raised for an unsupported OS type. -/
def default_ami_filters (osType : String) : Option AmiFilter :=
  if osType == "ubuntu" then some ubuntu_default_filter
  else if osType == "amazon-linux" then some amazon_linux_default_filter
  else if osType == "centos" then some centos_default_filter
  else none

/-- Python truthiness of the `ami_name_pattern` argument (line 456): `None`
and the empty string are falsy. -/
def patternTruthy : Option String → Bool
  | none => false
  | some s => s != ""

/-- The filter-selection logic of `_get_latest_ami` (lines 455-505):
`if ami_name_pattern and os_type == 'ubuntu'` selects the custom table, which
contains only the `ubuntu` entry; otherwise the default table is consulted.
The subsequent `describe_images` call and max-by-`CreationDate` selection
operate on whichever filter is returned here. -/
def ami_filter_for (osType : String) (amiNamePattern : Option String) :
    Option AmiFilter :=
  if patternTruthy amiNamePattern && osType == "ubuntu" then
    some (ubuntu_custom_filter (amiNamePattern.getD ""))
  else default_ami_filters osType

/- ---------------------------------------------------------------- -/
/-! ## Lemmas about the resolver loop                                -/
/- ---------------------------------------------------------------- -/

lemma search_other_regions_all_empty (listing : String → List Inst) :
    ∀ rs : List String, (∀ x ∈ rs, listing x = []) →
      search_other_regions listing rs = ⟨none, rs, none, []⟩
  | [], _ => rfl
  | r :: rs, h => by
    have hr : listing r = [] := h r (by simp)
    have ih := search_other_regions_all_empty listing rs
      (fun x hx => h x (List.mem_cons_of_mem _ hx))
    simp [search_other_regions, hr, ih]

lemma search_other_regions_ambiguous (listing : String → List Inst)
    (r : String) (post : List String) (hamb : 2 ≤ (listing r).length) :
    ∀ pre : List String, (∀ x ∈ pre, listing x = []) →
      search_other_regions listing (pre ++ r :: post) =
        ⟨none, pre ++ [r], none,
          (listing r).map (fun i => (i.instanceId, i.state, r))⟩
  | [], _ => by
    rcases hl : listing r with _ | ⟨a, _ | ⟨b, t⟩⟩
    · simp [hl] at hamb
    · simp [hl] at hamb
    · simp [search_other_regions, hl]
  | p :: pre, h => by
    have hp : listing p = [] := h p (by simp)
    have ih := search_other_regions_ambiguous listing r post hamb pre
      (fun x hx => h x (List.mem_cons_of_mem _ hx))
    simp [search_other_regions, hp, ih]

lemma search_other_regions_switch (listing : String → List Inst) :
    ∀ rs : List String,
      (search_other_regions listing rs).switchTo = none ∨
      ∃ r inst, r ∈ rs ∧ listing r = [inst] ∧
        (search_other_regions listing rs).result = some inst.instanceId ∧
        (search_other_regions listing rs).switchTo = some r
  | [] => Or.inl rfl
  | r :: rs => by
    rcases hl : listing r with _ | ⟨a, _ | ⟨b, t⟩⟩
    · rcases search_other_regions_switch listing rs with h | ⟨r', i', hmem, hli, hres, hsw⟩
      · exact Or.inl (by simp [search_other_regions, hl, h])
      · exact Or.inr ⟨r', i', List.mem_cons_of_mem _ hmem, hli,
          by simp [search_other_regions, hl, hres], by simp [search_other_regions, hl, hsw]⟩
    · exact Or.inr ⟨r, a, by simp, hl, by simp [search_other_regions, hl], by simp [search_other_regions, hl]⟩
    · exact Or.inl (by simp [search_other_regions, hl])

/- ---------------------------------------------------------------- -/
/-! ## Resolver claims (C2, C3, C4)                                  -/
/- ---------------------------------------------------------------- -/

/-- C3: for every identifier string that starts with `i-` and has length at
least 10, `_resolve_instance_identifier` returns that string unchanged,
queries no region's listing, reports no candidates and leaves the region
unchanged. -/
theorem resolve_fast_path (mgr : Mgr) (identifier : String)
    (listing : String → List Inst)
    (h : looks_like_instance_id identifier = true) :
    resolve_instance_identifier mgr identifier listing =
      ⟨some identifier, [], mgr.region, []⟩ := by
  simp [resolve_instance_identifier, h]

theorem resolve_fast_path_witness :
    looks_like_instance_id "i-12345678" = true ∧
    resolve_instance_identifier ⟨"us-east-1", ["us-east-1", "eu-west-1"]⟩
        "i-12345678" (fun _ => [⟨"i-0aaa1111", "running", none⟩]) =
      ⟨some "i-12345678", [], "us-east-1", []⟩ :=
  ⟨by decide, resolve_fast_path _ _ _ (by decide)⟩

/-- C2: for every non-id identifier, when the regions are searched in the
order home region then other configured regions in directory order, and the
first region whose listing is nonempty yields two or more candidates, the
resolver returns `none`, reports exactly that region's candidates
(id, state, region), and queries no region after that one. -/
theorem resolve_ambiguous_terminal (mgr : Mgr) (identifier : String)
    (listing : String → List Inst) (pre post : List String) (r : String)
    (hid : looks_like_instance_id identifier = false)
    (horder : mgr.region :: otherRegions mgr = pre ++ r :: post)
    (hpre : ∀ x ∈ pre, listing x = [])
    (hamb : 2 ≤ (listing r).length) :
    resolve_instance_identifier mgr identifier listing =
      ⟨none, pre ++ [r], mgr.region,
        (listing r).map (fun i => (i.instanceId, i.state, r))⟩ := by
  cases pre with
  | nil =>
    simp only [List.nil_append] at horder ⊢
    have h1 : mgr.region = r := by
      have := congrArg (fun l => l.headI) horder
      simpa using this
    have h2 : otherRegions mgr = post := by
      have := congrArg (fun l => l.tail) horder
      simpa using this
    subst h1
    rcases hl : listing mgr.region with _ | ⟨a, _ | ⟨b, t⟩⟩
    · simp [hl] at hamb
    · simp [hl] at hamb
    · simp [resolve_instance_identifier, hid, hl]
  | cons p pre' =>
    have h1 : mgr.region = p := by
      have := congrArg (fun l => l.headI) horder
      simpa using this
    have h2 : otherRegions mgr = pre' ++ r :: post := by
      have := congrArg (fun l => l.tail) horder
      simpa using this
    have hp : listing p = [] := hpre p (by simp)
    have hp' : listing mgr.region = [] := by rw [h1]; exact hp
    have hrest : ∀ x ∈ pre', listing x = [] :=
      fun x hx => hpre x (List.mem_cons_of_mem _ hx)
    have hsearch := search_other_regions_ambiguous listing r post hamb pre' hrest
    simp [resolve_instance_identifier, hid, hp, hp', h2, hsearch, h1]

theorem resolve_ambiguous_terminal_witness :
    looks_like_instance_id "web" = false ∧
    2 ≤ (if "eu-west-1" == "eu-west-1" then
          [Inst.mk "i-0aaa1111" "running" none, Inst.mk "i-0bbb2222" "stopped" none]
         else ([] : List Inst)).length ∧
    resolve_instance_identifier ⟨"us-east-1", ["us-east-1", "eu-west-1", "ap-south-1"]⟩
        "web" (fun r => if r == "eu-west-1" then
          [Inst.mk "i-0aaa1111" "running" none, Inst.mk "i-0bbb2222" "stopped" none]
         else []) =
      ⟨none, ["us-east-1", "eu-west-1"], "us-east-1",
        [("i-0aaa1111", "running", "eu-west-1"), ("i-0bbb2222", "stopped", "eu-west-1")]⟩ :=
  ⟨by decide, by decide,
    resolve_ambiguous_terminal _ _ _ ["us-east-1"] ["ap-south-1"] "eu-west-1"
      (by decide) (by decide) (by decide) (by decide)⟩

/-- C4: for every non-id identifier, (1) if every region's listing (home
region and every other configured region) is empty, the resolver returns
`none` after querying them all and the manager's region — and with it the
region-scoped client handles — is unchanged; (2) the region changes only
when some non-home configured region's listing has exactly one candidate,
whose id is returned. -/
theorem resolve_not_found_frame (mgr : Mgr) (identifier : String)
    (listing : String → List Inst)
    (hid : looks_like_instance_id identifier = false) :
    ((∀ x ∈ mgr.region :: otherRegions mgr, listing x = []) →
      resolve_instance_identifier mgr identifier listing =
        ⟨none, mgr.region :: otherRegions mgr, mgr.region, []⟩) ∧
    ((resolve_instance_identifier mgr identifier listing).finalRegion ≠ mgr.region →
      ∃ r inst, r ∈ otherRegions mgr ∧ listing r = [inst] ∧
        (resolve_instance_identifier mgr identifier listing).result =
          some inst.instanceId ∧
        (resolve_instance_identifier mgr identifier listing).finalRegion = r) := by
  constructor
  · intro hall
    have hhome : listing mgr.region = [] := hall _ (by simp)
    have hrest : ∀ x ∈ otherRegions mgr, listing x = [] :=
      fun x hx => hall x (List.mem_cons_of_mem _ hx)
    have hsearch := search_other_regions_all_empty listing (otherRegions mgr) hrest
    simp [resolve_instance_identifier, hid, hhome, hsearch]
  · intro hne
    rcases hl : listing mgr.region with _ | ⟨a, _ | ⟨b, t⟩⟩
    · rcases search_other_regions_switch listing (otherRegions mgr) with
        hsw | ⟨r, inst, hmem, hli, hres, hsw⟩
      · exact absurd (by simp [resolve_instance_identifier, hid, hl, hsw]) hne
      · exact ⟨r, inst, hmem, hli,
          by simp [resolve_instance_identifier, hid, hl, hres],
          by simp [resolve_instance_identifier, hid, hl, hsw]⟩
    · exact absurd (by simp [resolve_instance_identifier, hid, hl]) hne
    · exact absurd (by simp [resolve_instance_identifier, hid, hl]) hne

theorem resolve_not_found_frame_witness :
    looks_like_instance_id "myhost" = false ∧
    resolve_instance_identifier ⟨"us-east-1", ["us-east-1", "eu-west-1"]⟩
        "myhost" (fun _ => []) =
      ⟨none, ["us-east-1", "eu-west-1"], "us-east-1", []⟩ :=
  ⟨by decide,
    (resolve_not_found_frame ⟨"us-east-1", ["us-east-1", "eu-west-1"]⟩
      "myhost" (fun _ => []) (by decide)).1 (by intro x _; rfl)⟩

/- ---------------------------------------------------------------- -/
/-! ## Lemmas about the price dict loop                              -/
/- ---------------------------------------------------------------- -/

lemma latest_prices_loop_mem {κ : Type} [DecidableEq κ] :
    ∀ (rs acc : List (PriceRow κ)) (x : PriceRow κ),
      x ∈ latest_prices_loop acc rs →
      x ∈ acc ∨ (x ∈ rs ∧ ∀ a ∈ acc, priceKey a ≠ priceKey x)
  | [], _, _, h => Or.inl h
  | r :: rs, acc, x, h => by
    have hstep : latest_prices_loop acc (r :: rs) =
        if acc.any (fun a => decide (priceKey a = priceKey r)) then
          latest_prices_loop acc rs
        else latest_prices_loop (acc ++ [r]) rs := rfl
    by_cases hc : acc.any (fun a => decide (priceKey a = priceKey r)) = true
    · rw [hstep, if_pos hc] at h
      rcases latest_prices_loop_mem rs acc x h with h1 | ⟨h1, h2⟩
      · exact Or.inl h1
      · exact Or.inr ⟨List.mem_cons_of_mem _ h1, h2⟩
    · rw [hstep, if_neg hc] at h
      rcases latest_prices_loop_mem rs (acc ++ [r]) x h with h1 | ⟨h1, h2⟩
      · rcases List.mem_append.1 h1 with h3 | h3
        · exact Or.inl h3
        · have hx : x = r := by simpa using h3
          subst hx
          refine Or.inr ⟨by simp, fun a ha hk => hc ?_⟩
          exact List.any_eq_true.2 ⟨a, ha, by simp [hk]⟩
      · exact Or.inr ⟨List.mem_cons_of_mem _ h1,
          fun a ha => h2 a (List.mem_append.2 (Or.inl ha))⟩

lemma latest_prices_loop_keys {κ : Type} [DecidableEq κ] :
    ∀ (rs acc : List (PriceRow κ)) (k : κ × κ),
      ((∃ a ∈ acc, priceKey a = k) ∨ (∃ r ∈ rs, priceKey r = k)) →
      ∃ o ∈ latest_prices_loop acc rs, priceKey o = k
  | [], acc, k, h => by
    rcases h with ⟨a, ha, hk⟩ | ⟨r, hr, _⟩
    · exact ⟨a, ha, hk⟩
    · exact absurd hr (List.not_mem_nil r)
  | r :: rs, acc, k, h => by
    have hstep : latest_prices_loop acc (r :: rs) =
        if acc.any (fun a => decide (priceKey a = priceKey r)) then
          latest_prices_loop acc rs
        else latest_prices_loop (acc ++ [r]) rs := rfl
    by_cases hc : acc.any (fun a => decide (priceKey a = priceKey r)) = true
    · rw [hstep, if_pos hc]
      rcases h with ⟨a, ha, hk⟩ | ⟨x, hx, hk⟩
      · exact latest_prices_loop_keys rs acc k (Or.inl ⟨a, ha, hk⟩)
      · rcases List.mem_cons.1 hx with hxr | hx'
        · obtain ⟨a, ha, hak⟩ := List.any_eq_true.1 hc
          exact latest_prices_loop_keys rs acc k
            (Or.inl ⟨a, ha, (of_decide_eq_true hak).trans (hxr ▸ hk)⟩)
        · exact latest_prices_loop_keys rs acc k (Or.inr ⟨x, hx', hk⟩)
    · rw [hstep, if_neg hc]
      rcases h with ⟨a, ha, hk⟩ | ⟨x, hx, hk⟩
      · exact latest_prices_loop_keys rs (acc ++ [r]) k
          (Or.inl ⟨a, List.mem_append.2 (Or.inl ha), hk⟩)
      · rcases List.mem_cons.1 hx with hxr | hx'
        · exact latest_prices_loop_keys rs (acc ++ [r]) k
            (Or.inl ⟨r, List.mem_append.2 (Or.inr (by simp)), hxr ▸ hk⟩)
        · exact latest_prices_loop_keys rs (acc ++ [r]) k (Or.inr ⟨x, hx', hk⟩)

lemma latest_prices_loop_nodup_keys {κ : Type} [DecidableEq κ] :
    ∀ (rs acc : List (PriceRow κ)),
      acc.Pairwise (fun a b => priceKey a ≠ priceKey b) →
      (latest_prices_loop acc rs).Pairwise (fun a b => priceKey a ≠ priceKey b)
  | [], _, h => h
  | r :: rs, acc, h => by
    have hstep : latest_prices_loop acc (r :: rs) =
        if acc.any (fun a => decide (priceKey a = priceKey r)) then
          latest_prices_loop acc rs
        else latest_prices_loop (acc ++ [r]) rs := rfl
    by_cases hc : acc.any (fun a => decide (priceKey a = priceKey r)) = true
    · rw [hstep, if_pos hc]
      exact latest_prices_loop_nodup_keys rs acc h
    · rw [hstep, if_neg hc]
      refine latest_prices_loop_nodup_keys rs (acc ++ [r]) ?_
      refine List.pairwise_append.2 ⟨h, List.pairwise_singleton _ _, ?_⟩
      intro a ha b hb
      have hb' : b = r := by simpa using hb
      subst hb'
      intro hk
      exact hc (List.any_eq_true.2 ⟨a, ha, by simp [hk]⟩)

lemma eq_of_pairwise_keys {κ : Type} {l : List (PriceRow κ)}
    (hl : l.Pairwise (fun a b => priceKey a ≠ priceKey b)) :
    ∀ {x y : PriceRow κ}, x ∈ l → y ∈ l → priceKey x = priceKey y → x = y := by
  induction l with
  | nil => intro x y hx _ _; exact absurd hx (List.not_mem_nil x)
  | cons a t ih =>
    intro x y hx hy hk
    rcases List.mem_cons.1 hx with rfl | hx' <;> rcases List.mem_cons.1 hy with rfl | hy'
    · rfl
    · exact absurd hk (List.rel_of_pairwise_cons hl hy')
    · exact absurd hk.symm (List.rel_of_pairwise_cons hl hx')
    · exact ih hl.of_cons hx' hy' hk

lemma latest_prices_loop_max {κ : Type} [DecidableEq κ] :
    ∀ (rs acc : List (PriceRow κ)),
      (acc ++ rs).Pairwise
        (fun a b => priceKey a = priceKey b → b.timestamp ≤ a.timestamp) →
      acc.Pairwise (fun a b => priceKey a ≠ priceKey b) →
      ∀ o ∈ latest_prices_loop acc rs, ∀ x ∈ acc ++ rs,
        priceKey x = priceKey o → x.timestamp ≤ o.timestamp
  | [], acc, _, hnd, o, ho, x, hx, hk => by
    rw [List.append_nil] at hx
    have : x = o := eq_of_pairwise_keys hnd hx ho hk
    exact this ▸ le_refl _
  | r :: rs, acc, hts, hnd, o, ho, x, hx, hk => by
    have hstep : latest_prices_loop acc (r :: rs) =
        if acc.any (fun a => decide (priceKey a = priceKey r)) then
          latest_prices_loop acc rs
        else latest_prices_loop (acc ++ [r]) rs := rfl
    by_cases hc : acc.any (fun a => decide (priceKey a = priceKey r)) = true
    · rw [hstep, if_pos hc] at ho
      have hts' : (acc ++ rs).Pairwise
          (fun a b => priceKey a = priceKey b → b.timestamp ≤ a.timestamp) := by
        refine List.Pairwise.sublist ?_ hts
        exact List.Sublist.append_left (List.sublist_cons_self r rs) acc
      rcases List.mem_append.1 hx with hxa | hxr
      · exact latest_prices_loop_max rs acc hts' hnd o ho x
          (List.mem_append.2 (Or.inl hxa)) hk
      · rcases List.mem_cons.1 hxr with rfl | hxr'
        · rcases latest_prices_loop_mem rs acc o ho with hoacc | ⟨_, hofresh⟩
          · have hcross := (List.pairwise_append.1 hts).2.2
            exact hcross o hoacc x (by simp) hk.symm
          · obtain ⟨a, ha, hak⟩ := List.any_eq_true.1 hc
            exact absurd ((of_decide_eq_true hak).trans hk) (hofresh a ha)
        · exact latest_prices_loop_max rs acc hts' hnd o ho x
            (List.mem_append.2 (Or.inr hxr')) hk
    · rw [hstep, if_neg hc] at ho
      have hts' : ((acc ++ [r]) ++ rs).Pairwise
          (fun a b => priceKey a = priceKey b → b.timestamp ≤ a.timestamp) := by
        rw [← List.append_cons]
        exact hts
      have hnd' : (acc ++ [r]).Pairwise (fun a b => priceKey a ≠ priceKey b) := by
        refine List.pairwise_append.2 ⟨hnd, List.pairwise_singleton _ _, ?_⟩
        intro a ha b hb
        have hb' : b = r := by simpa using hb
        subst hb'
        intro hk2
        exact hc (List.any_eq_true.2 ⟨a, ha, by simp [hk2]⟩)
      have hx' : x ∈ (acc ++ [r]) ++ rs := by
        rw [← List.append_cons]
        exact hx
      exact latest_prices_loop_max rs (acc ++ [r]) hts' hnd' o ho x hx' hk

/- ---------------------------------------------------------------- -/
/-! ## Price oracle claim (C1)                                       -/
/- ---------------------------------------------------------------- -/

/-- C1 counterexample: when the provider's response is not ordered
newest-first, `get_spot_prices` keeps the *first* row per
(instance type, zone) pair, not the row with the maximum timestamp: on a
two-row response for one pair whose second row is strictly newer, the
returned list is exactly the older first row. -/
theorem get_spot_prices_first_wins_counterexample :
    get_spot_prices [PriceRow.mk (0 : ℕ) 0 1 0, PriceRow.mk 0 0 2 5] =
      [PriceRow.mk 0 0 1 0] ∧
    priceKey (PriceRow.mk (0 : ℕ) 0 2 5) = priceKey (PriceRow.mk (0 : ℕ) 0 1 0) ∧
    (PriceRow.mk (0 : ℕ) 0 1 0).timestamp < (PriceRow.mk (0 : ℕ) 0 2 5).timestamp := by
  refine ⟨rfl, rfl, by decide⟩

/-- C1 (amended): `get_spot_prices` returns, for each
(instance type, availability zone) pair occurring in the input, exactly one
row, namely the *first* row of the response for that pair; whenever the
response lists each pair's rows newest-first (as the provider does), that row
has the maximum timestamp for the pair.  The returned rows all come from the
input, carry pairwise distinct keys, and are sorted ascending by
(instance type, availability zone). -/
theorem get_spot_prices_latest_per_key {κ : Type} [LinearOrder κ]
    (rows : List (PriceRow κ))
    (hnewest : rows.Pairwise
      (fun a b => priceKey a = priceKey b → b.timestamp ≤ a.timestamp)) :
    (∀ o ∈ get_spot_prices rows, o ∈ rows) ∧
    (∀ k : κ × κ, (∃ r ∈ rows, priceKey r = k) →
      ∃ o ∈ get_spot_prices rows, priceKey o = k ∧
        ∀ x ∈ rows, priceKey x = k → x.timestamp ≤ o.timestamp) ∧
    (get_spot_prices rows).Pairwise (fun a b => priceKey a ≠ priceKey b) ∧
    List.Sorted rowLe (get_spot_prices rows) := by
  have hperm : (get_spot_prices rows).Perm (latest_prices_loop [] rows) :=
    List.perm_insertionSort rowLe (latest_prices_loop [] rows)
  refine ⟨?_, ?_, ?_, ?_⟩
  · intro o ho
    rcases latest_prices_loop_mem rows [] o (hperm.mem_iff.1 ho) with h | ⟨h, _⟩
    · exact absurd h (List.not_mem_nil o)
    · exact h
  · intro k hk
    obtain ⟨o, ho, hko⟩ := latest_prices_loop_keys rows [] k (Or.inr hk)
    refine ⟨o, hperm.mem_iff.2 ho, hko, fun x hx hkx => ?_⟩
    exact latest_prices_loop_max rows [] (by simpa using hnewest) (by simp)
      o ho x (by simpa using hx) (by rw [hkx, hko])
  · have h0 := latest_prices_loop_nodup_keys rows [] (by simp)
    exact (hperm.pairwise_iff (fun {a b} h hk => h hk.symm)).2 h0
  · exact List.sorted_insertionSort rowLe (latest_prices_loop [] rows)

theorem get_spot_prices_latest_per_key_witness :
    List.Pairwise
      (fun a b => priceKey a = priceKey b → b.timestamp ≤ a.timestamp)
      [PriceRow.mk (0 : ℕ) 0 2 5, PriceRow.mk 0 0 1 0, PriceRow.mk 1 0 3 7] ∧
    (List.Pairwise (fun a b => priceKey a ≠ priceKey b)
      (get_spot_prices
        [PriceRow.mk (0 : ℕ) 0 2 5, PriceRow.mk 0 0 1 0, PriceRow.mk 1 0 3 7]) ∧
     List.Sorted rowLe
      (get_spot_prices
        [PriceRow.mk (0 : ℕ) 0 2 5, PriceRow.mk 0 0 1 0, PriceRow.mk 1 0 3 7])) :=
  ⟨by decide,
   (get_spot_prices_latest_per_key _ (by decide)).2.2.1,
   (get_spot_prices_latest_per_key _ (by decide)).2.2.2⟩

/- ---------------------------------------------------------------- -/
/-! ## Launch request claims (C5, C6, C9)                            -/
/- ---------------------------------------------------------------- -/

/-- C5 (amended): whenever the profile requests a spot instance, the launch
request carries spot market options with interruption behaviour `hibernate`
iff hibernation is enabled (else `terminate`), persistence `persistent` iff
hibernation is enabled (else `one-time`), and a `MaxPrice` field present if
and only if a *nonzero* spot price is specified (call-time override taking
precedence over the profile value); a specified price of `0` is falsy in
Python and leaves `MaxPrice` absent. -/
theorem build_run_params_spot_market (profile : Profile)
    (profileName instanceName : String) (appClass : Option String)
    (ov : Option ℚ) (dryRun : Bool) (az : Option String) (amiId : String)
    (subnetId keyName : Option String) (createdAt : String)
    (hspot : profile.spot_instance.getD false = true) :
    ∃ so : SpotOptions,
      (build_run_params profile profileName instanceName appClass
          (effective_spot_price profile ov) dryRun az amiId subnetId keyName
          createdAt).instanceMarketOptions = some (MarketOptions.mk "spot" so) ∧
      so.instanceInterruptionBehavior =
        (if profile.hibernation_enabled.getD false then "hibernate" else "terminate") ∧
      so.spotInstanceType =
        (if profile.hibernation_enabled.getD false then "persistent" else "one-time") ∧
      (so.maxPrice.isSome = true ↔
        ∃ p : ℚ, effective_spot_price profile ov = some p ∧ p ≠ 0) ∧
      (∀ p : ℚ, so.maxPrice = some p → effective_spot_price profile ov = some p) := by
  refine ⟨SpotOptions.mk
      (if profile.hibernation_enabled.getD false then "persistent" else "one-time")
      (if profile.hibernation_enabled.getD false then "hibernate" else "terminate")
      (match effective_spot_price profile ov with
       | some p => if p = 0 then none else some p
       | none => none), ?_, rfl, rfl, ?_, ?_⟩
  · simp [build_run_params, hspot]
  · cases hq : effective_spot_price profile ov with
    | none => simp
    | some q =>
      by_cases h0 : q = 0
      · simp [h0]
      · simp [h0]
  · intro p hp
    cases hq : effective_spot_price profile ov with
    | none =>
      rw [hq] at hp
      simp at hp
    | some q =>
      rw [hq] at hp
      by_cases h0 : q = 0
      · simp [h0] at hp
      · simp [h0] at hp
        rw [hp]

theorem build_run_params_spot_market_witness :
    (Profile.mk none none none none [] none none (some true) (some true) none
        none none none none [] none).spot_instance.getD false = true ∧
    ∃ so : SpotOptions,
      (build_run_params
          (Profile.mk none none none none [] none none (some true) (some true)
            none none none none none [] none)
          "prof" "web" none
          (effective_spot_price
            (Profile.mk none none none none [] none none (some true) (some true)
              none none none none none [] none) (some 2))
          false none "ami-123" none (some "key1") "ts").instanceMarketOptions =
        some (MarketOptions.mk "spot" so) ∧
      so.instanceInterruptionBehavior =
        (if (Profile.mk none none none none [] none none (some true) (some true)
              none none none none none [] none).hibernation_enabled.getD false
         then "hibernate" else "terminate") ∧
      so.spotInstanceType =
        (if (Profile.mk none none none none [] none none (some true) (some true)
              none none none none none [] none).hibernation_enabled.getD false
         then "persistent" else "one-time") ∧
      (so.maxPrice.isSome = true ↔
        ∃ p : ℚ, effective_spot_price
            (Profile.mk none none none none [] none none (some true) (some true)
              none none none none none [] none) (some 2) = some p ∧ p ≠ 0) ∧
      (∀ p : ℚ, so.maxPrice = some p →
        effective_spot_price
          (Profile.mk none none none none [] none none (some true) (some true)
            none none none none none [] none) (some 2) = some p) :=
  ⟨rfl, build_run_params_spot_market _ "prof" "web" none (some 2) false none
    "ami-123" none (some "key1") "ts" rfl⟩

/-- C5 counterexample: a profile that *does* specify a spot price, namely
`0`, yields spot market options with no `MaxPrice` field, refuting "present
if and only if a spot price is specified". -/
theorem spot_price_zero_counterexample :
    effective_spot_price
      (Profile.mk none none none none [] none none (some true) none none none
        none none (some 0) [] none) none = some 0 ∧
    (build_run_params
      (Profile.mk none none none none [] none none (some true) none none none
        none none (some 0) [] none) "prof" "web" none
      (effective_spot_price
        (Profile.mk none none none none [] none none (some true) none none none
          none none (some 0) [] none) none)
      false none "ami-123" none (some "key1") "ts").instanceMarketOptions =
      some (MarketOptions.mk "spot" (SpotOptions.mk "one-time" "terminate" none)) :=
  ⟨rfl, rfl⟩

/-- C6: when some existing non-terminated instance already carries the
requested display name (the duplicate-name check succeeds), `create_instance`
returns `None` and issues no launch nor any other mutating remote call. -/
theorem create_duplicate_name_rejected (env : CreateEnv)
    (profileName instanceName : String) (appClass : Option String)
    (ov : Option ℚ) (dryRun : Bool) (az : Option String)
    (h : instance_name_exists env.nameResp = true) :
    create_instance env profileName instanceName appClass ov dryRun az =
      (none, []) := by
  simp [create_instance, h]

theorem create_duplicate_name_rejected_witness :
    instance_name_exists
      (Except.ok [[Inst.mk "i-0aaa1111" "running" none]]) = true ∧
    create_instance
      ⟨Except.ok [[Inst.mk "i-0aaa1111" "running" none]], none, Except.error (),
        none, none, Except.error (), "ts"⟩ "prof" "web" none none false none =
      (none, []) :=
  ⟨rfl, create_duplicate_name_rejected _ "prof" "web" none none false none rfl⟩

/-- C9: the duplicate-name precondition fails open — when the listing call
inside `_instance_name_exists` raises a `ClientError`, the check reports that
the name does not exist, and `create_instance` proceeds all the way to the
`run_instances` launch call (here: with an explicit profile AMI and key and
no requested availability zone, so no other lookup can fail first). -/
theorem name_check_fails_open (env : CreateEnv)
    (profileName instanceName : String) (appClass : Option String)
    (ov : Option ℚ) (profile : Profile) (amiId keyName : String)
    (herr : env.nameResp = Except.error ())
    (hprof : env.profileLoaded = some profile)
    (hami : profile.ami_id = some amiId)
    (hkey : profile.key_name = some keyName) :
    instance_name_exists env.nameResp = false ∧
    (create_instance env profileName instanceName appClass ov false none).2 =
      [MutCall.runInstances (build_run_params profile profileName instanceName
        appClass (effective_spot_price profile ov) false none amiId
        profile.subnet_id (some keyName) env.createdAt)] := by
  constructor
  · rw [herr]; rfl
  · cases hrun : env.runResult <;>
      simp [create_instance, instance_name_exists, herr, hprof, hami, hkey, hrun]

theorem name_check_fails_open_witness :
    instance_name_exists (Except.error ()) = false ∧
    (create_instance
      ⟨Except.error (), some (Profile.mk none (some "ami-1") none (some "key1")
        [] none none none none none none none none none [] none),
        Except.error (), none, none, Except.ok "i-0abc1234", "ts"⟩
      "prof" "web" none none false none).2 =
      [MutCall.runInstances (build_run_params
        (Profile.mk none (some "ami-1") none (some "key1") [] none none none
          none none none none none none [] none)
        "prof" "web" none
        (effective_spot_price
          (Profile.mk none (some "ami-1") none (some "key1") [] none none none
            none none none none none none [] none) none)
        false none "ami-1" none (some "key1") "ts")] :=
  name_check_fails_open
    ⟨Except.error (), some (Profile.mk none (some "ami-1") none (some "key1")
      [] none none none none none none none none none [] none),
      Except.error (), none, none, Except.ok "i-0abc1234", "ts"⟩
    "prof" "web" none none
    (Profile.mk none (some "ami-1") none (some "key1") [] none none none
      none none none none none none [] none)
    "ami-1" "key1" rfl rfl rfl rfl

/- ---------------------------------------------------------------- -/
/-! ## Terminate claim (C7)                                          -/
/- ---------------------------------------------------------------- -/

/-- C7: on a resolved instance that carries a spot-request reference,
`terminate_instance` issues the cancel-spot-request call before the
terminate call (whatever the cancel call's outcome), and when the terminate
call succeeds it returns `True` — in particular even when the cancel call
fails, since `env.cancelResult` is unconstrained here. -/
theorem terminate_cancel_before_terminate (mgr : Mgr) (identifier : String)
    (listing : String → List Inst) (env : TermEnv)
    (instanceId requestId : String) (inst : Inst)
    (hres : (resolve_instance_identifier mgr identifier listing).result =
      some instanceId)
    (hdesc : env.describeResp = Except.ok inst)
    (hspot : inst.spotInstanceRequestId = some requestId) :
    (terminate_instance mgr identifier listing env).2 =
      [TermCall.describeInstances instanceId,
       TermCall.cancelSpotRequests requestId,
       TermCall.terminateInstances instanceId] ∧
    (env.terminateResult = Except.ok () →
      (terminate_instance mgr identifier listing env).1 = true) := by
  constructor
  · cases hterm : env.terminateResult <;>
      simp [terminate_instance, hres, hdesc, hspot, hterm]
  · intro hterm
    simp [terminate_instance, hres, hdesc, hspot, hterm]

theorem terminate_cancel_before_terminate_witness :
    (resolve_instance_identifier ⟨"us-east-1", ["us-east-1"]⟩ "i-12345678"
      (fun _ => [])).result = some "i-12345678" ∧
    (terminate_instance ⟨"us-east-1", ["us-east-1"]⟩ "i-12345678" (fun _ => [])
      ⟨Except.ok (Inst.mk "i-12345678" "running" (some "sir-123")),
        Except.error (), Except.ok ()⟩).1 = true ∧
    (terminate_instance ⟨"us-east-1", ["us-east-1"]⟩ "i-12345678" (fun _ => [])
      ⟨Except.ok (Inst.mk "i-12345678" "running" (some "sir-123")),
        Except.error (), Except.ok ()⟩).2 =
      [TermCall.describeInstances "i-12345678",
       TermCall.cancelSpotRequests "sir-123",
       TermCall.terminateInstances "i-12345678"] :=
  ⟨rfl,
   (terminate_cancel_before_terminate ⟨"us-east-1", ["us-east-1"]⟩ "i-12345678"
     (fun _ => [])
     ⟨Except.ok (Inst.mk "i-12345678" "running" (some "sir-123")),
       Except.error (), Except.ok ()⟩ "i-12345678" "sir-123"
     (Inst.mk "i-12345678" "running" (some "sir-123")) rfl rfl rfl).2 rfl,
   (terminate_cancel_before_terminate ⟨"us-east-1", ["us-east-1"]⟩ "i-12345678"
     (fun _ => [])
     ⟨Except.ok (Inst.mk "i-12345678" "running" (some "sir-123")),
       Except.error (), Except.ok ()⟩ "i-12345678" "sir-123"
     (Inst.mk "i-12345678" "running" (some "sir-123")) rfl rfl rfl).1⟩

/- ---------------------------------------------------------------- -/
/-! ## AMI filter claim (C10)                                        -/
/- ---------------------------------------------------------------- -/

/-- C10: a profile-supplied image name pattern is honoured only for the
`ubuntu` OS family: for `amazon-linux` and `centos` the supplied pattern is
ignored and the built-in default name filter of that family is used, while
for `ubuntu` a (truthy) pattern replaces the default name filter. -/
theorem ami_pattern_only_ubuntu :
    (∀ pat : String,
      ami_filter_for "amazon-linux" (some pat) = some amazon_linux_default_filter) ∧
    (∀ pat : String,
      ami_filter_for "centos" (some pat) = some centos_default_filter) ∧
    (∀ pat : String, pat ≠ "" →
      ami_filter_for "ubuntu" (some pat) = some (ubuntu_custom_filter pat)) ∧
    ami_filter_for "ubuntu" none = some ubuntu_default_filter := by
  have hal : ("amazon-linux" == "ubuntu") = false := rfl
  have hce : ("centos" == "ubuntu") = false := rfl
  refine ⟨?_, ?_, ?_, rfl⟩
  · intro pat
    simp [ami_filter_for, hal, default_ami_filters, hal]
  · intro pat
    simp [ami_filter_for, hce, default_ami_filters, hal, hce]
  · intro pat hp
    have ht : patternTruthy (some pat) = true := by
      simpa [patternTruthy] using hp
    simp [ami_filter_for, ht]

theorem ami_pattern_only_ubuntu_witness :
    ("custom-ami-*" : String) ≠ "" ∧
    ami_filter_for "ubuntu" (some "custom-ami-*") =
      some (ubuntu_custom_filter "custom-ami-*") ∧
    ami_filter_for "amazon-linux" (some "custom-ami-*") =
      some amazon_linux_default_filter ∧
    ami_filter_for "centos" (some "custom-ami-*") = some centos_default_filter :=
  ⟨by decide,
   ami_pattern_only_ubuntu.2.2.1 "custom-ami-*" (by decide),
   ami_pattern_only_ubuntu.1 "custom-ami-*",
   ami_pattern_only_ubuntu.2.1 "custom-ami-*"⟩

/- ---------------------------------------------------------------- -/
/-! ## Lemmas about the retry loop                                   -/
/- ---------------------------------------------------------------- -/

lemma retryAux_attempts_pos (call : ℕ → CallOutcome α) (mr : ℕ) (d : ℚ) :
    ∀ (a rem : ℕ), 1 ≤ rem → 1 ≤ (retryAux call mr d a rem).attempts := by
  intro a rem h
  match rem, h with
  | rem + 1, _ =>
    cases hc : call a with
    | ok v => simp [retryAux, hc]
    | clientError c =>
      by_cases he : (a == mr) = true
      · simp [retryAux, hc, he]
      · by_cases hh : handle_aws_error c = true
        · simp [retryAux, hc, he, hh]
        · simp [retryAux, hc, he, hh]
    | networkError =>
      by_cases he : (a == mr) = true
      · simp [retryAux, hc, he]
      · simp [retryAux, hc, he]

lemma retryAux_step_client {call : ℕ → CallOutcome α} {mr : ℕ} {d : ℚ}
    {a : ℕ} {c : String} (hc : call a = CallOutcome.clientError c)
    (hane : (a == mr) = false) (hh : handle_aws_error c = true) (rem : ℕ) :
    retryAux call mr d a (rem + 1) =
      ⟨(retryAux call mr d (a + 1) rem).result,
       d * 2 ^ a :: (retryAux call mr d (a + 1) rem).sleeps,
       (retryAux call mr d (a + 1) rem).attempts + 1⟩ := by
  simp [retryAux, hc, hane, hh]

lemma retryAux_step_network {call : ℕ → CallOutcome α} {mr : ℕ} {d : ℚ}
    {a : ℕ} (hc : call a = CallOutcome.networkError)
    (hane : (a == mr) = false) (rem : ℕ) :
    retryAux call mr d a (rem + 1) =
      ⟨(retryAux call mr d (a + 1) rem).result,
       d * 2 ^ a :: (retryAux call mr d (a + 1) rem).sleeps,
       (retryAux call mr d (a + 1) rem).attempts + 1⟩ := by
  simp [retryAux, hc, hane]

lemma retryAux_retryable_prefix (call : ℕ → CallOutcome α) (mr : ℕ) (d : ℚ) :
    ∀ (m a : ℕ), (∀ j, j < m → retryableOutcome (call (a + j)) = true) →
      a + m ≤ mr →
      retryAux call mr d a (mr + 1 - a) =
        ⟨(retryAux call mr d (a + m) (mr + 1 - (a + m))).result,
         (List.range m).map (fun j => d * 2 ^ (a + j)) ++
           (retryAux call mr d (a + m) (mr + 1 - (a + m))).sleeps,
         (retryAux call mr d (a + m) (mr + 1 - (a + m))).attempts + m⟩ := by
  intro m
  induction m with
  | zero =>
    intro a _ _
    simp
  | succ n ih =>
    intro a hret hle
    have hane : (a == mr) = false := by
      simp only [beq_eq_false_iff_ne, ne_eq]
      omega
    have hrem : mr + 1 - a = (mr - a) + 1 := by omega
    have hrem2 : mr - a = mr + 1 - (a + 1) := by omega
    have h0 := hret 0 (by omega)
    have ihhyp : ∀ j, j < n → retryableOutcome (call (a + 1 + j)) = true := by
      intro j hj
      have h := hret (j + 1) (by omega)
      rw [show a + (j + 1) = a + 1 + j by omega] at h
      exact h
    have ih' := ih (a + 1) ihhyp (by omega)
    have hs : a + (n + 1) = (a + 1) + n := by omega
    have hmap : (List.range (n + 1)).map (fun j => d * 2 ^ (a + j)) =
        d * 2 ^ a :: (List.range n).map (fun j => d * 2 ^ (a + 1 + j)) := by
      rw [List.range_succ_eq_map, List.map_cons, List.map_map]
      refine congrArg₂ List.cons (by rw [Nat.add_zero]) ?_
      refine List.map_congr_left ?_
      intro j _
      simp only [Function.comp_apply]
      rw [show a + (j + 1) = a + 1 + j by omega]
    rw [Nat.add_zero] at h0
    cases hc : call a with
    | ok v =>
      rw [hc] at h0
      simp [retryableOutcome] at h0
    | clientError c =>
      rw [hc] at h0
      have hh : handle_aws_error c = true := by
        simpa [retryableOutcome] using h0
      rw [hrem, retryAux_step_client hc hane hh (mr - a), hrem2, ih', hs, hmap]
      simp [Nat.add_assoc]
    | networkError =>
      rw [hrem, retryAux_step_network hc hane (mr - a), hrem2, ih', hs, hmap]
      simp [Nat.add_assoc]

/- ---------------------------------------------------------------- -/
/-! ## Retry policy claim (C8)                                       -/
/- ---------------------------------------------------------------- -/

/-- C8: for a wrapped operation under `retry_on_aws_error`, after any prefix
of retried attempts: (a) an error whose code is classified non-retryable
(Permanent or Unknown, i.e. `handle_aws_error` says no) on attempt `k`
propagates at once — the sleeps are exactly those of the earlier attempts
(none for attempt `k`) and no further attempt is made; (b) a retryable error
on attempt `k < max_retries` is followed by the back-off sleep
`delay * 2 ^ k` and at least one more attempt; (c) any error raised on the
final attempt (`k = max_retries`) propagates regardless of its
classification, with no sleep after it. -/
theorem retry_on_aws_error_policy (call : ℕ → CallOutcome α) (mr : ℕ) (d : ℚ) :
    (∀ (k : ℕ) (c : String), k ≤ mr →
      (∀ j, j < k → retryableOutcome (call j) = true) →
      call k = CallOutcome.clientError c → handle_aws_error c = false →
      retry_on_aws_error mr d call =
        ⟨Except.error (RunError.client c),
         (List.range k).map (fun j => d * 2 ^ j), k + 1⟩) ∧
    (∀ k : ℕ, k < mr → (∀ j, j ≤ k → retryableOutcome (call j) = true) →
      (List.range (k + 1)).map (fun j => d * 2 ^ j) <+:
        (retry_on_aws_error mr d call).sleeps ∧
      k + 2 ≤ (retry_on_aws_error mr d call).attempts) ∧
    (∀ e : RunError, (∀ j, j < mr → retryableOutcome (call j) = true) →
      outcomeErr (call mr) = some e →
      retry_on_aws_error mr d call =
        ⟨Except.error e, (List.range mr).map (fun j => d * 2 ^ j), mr + 1⟩) := by
  refine ⟨?_, ?_, ?_⟩
  · intro k c hk hret hck hperm
    have hpre := retryAux_retryable_prefix call mr d k 0
      (fun j hj => by simpa using hret j hj) (by omega)
    simp only [Nat.zero_add, Nat.sub_zero] at hpre
    have hR : retryAux call mr d k (mr + 1 - k) =
        ⟨Except.error (RunError.client c), [], 1⟩ := by
      rw [show mr + 1 - k = (mr - k) + 1 by omega]
      by_cases hkm : (k == mr) = true
      · simp [retryAux, hck, hkm]
      · simp [retryAux, hck, hkm, hperm]
    show retryAux call mr d 0 (mr + 1) = _
    rw [hpre, hR]
    simp [Nat.add_comm]
  · intro k hk hret
    have hpre := retryAux_retryable_prefix call mr d (k + 1) 0
      (fun j hj => by simpa using hret j (by omega)) (by omega)
    simp only [Nat.zero_add, Nat.sub_zero] at hpre
    have hpos : 1 ≤ (retryAux call mr d (k + 1) (mr + 1 - (k + 1))).attempts :=
      retryAux_attempts_pos call mr d (k + 1) _ (by omega)
    constructor
    · show (List.range (k + 1)).map (fun j => d * 2 ^ j) <+:
        (retryAux call mr d 0 (mr + 1)).sleeps
      rw [hpre]
      exact List.prefix_append _ _
    · show k + 2 ≤ (retryAux call mr d 0 (mr + 1)).attempts
      rw [hpre]
      show k + 2 ≤ (retryAux call mr d (k + 1) (mr + 1 - (k + 1))).attempts + (k + 1)
      omega
  · intro e hret herr
    have hpre := retryAux_retryable_prefix call mr d mr 0
      (fun j hj => by simpa using hret j hj) (by omega)
    simp only [Nat.zero_add, Nat.sub_zero] at hpre
    have hR : retryAux call mr d mr (mr + 1 - mr) = ⟨Except.error e, [], 1⟩ := by
      rw [show mr + 1 - mr = 0 + 1 by omega]
      cases hc : call mr with
      | ok v =>
        rw [hc] at herr
        simp [outcomeErr] at herr
      | clientError c =>
        rw [hc] at herr
        simp only [outcomeErr, Option.some.injEq] at herr
        subst herr
        simp [retryAux, hc]
      | networkError =>
        rw [hc] at herr
        simp only [outcomeErr, Option.some.injEq] at herr
        subst herr
        simp [retryAux, hc]
    show retryAux call mr d 0 (mr + 1) = _
    rw [hpre, hR]
    simp [Nat.add_comm]

theorem retry_on_aws_error_policy_witness :
    handle_aws_error "InvalidParameterValue" = false ∧
    retryableOutcome ((fun n : ℕ =>
      if n == 0 then (CallOutcome.clientError "Throttling" : CallOutcome Unit)
      else CallOutcome.clientError "InvalidParameterValue") 0) = true ∧
    retry_on_aws_error 2 2 (fun n : ℕ =>
      if n == 0 then (CallOutcome.clientError "Throttling" : CallOutcome Unit)
      else CallOutcome.clientError "InvalidParameterValue") =
      ⟨Except.error (RunError.client "InvalidParameterValue"),
       [(2 : ℚ) * 2 ^ 0], 2⟩ :=
  ⟨by decide, by decide,
   (retry_on_aws_error_policy (fun n : ℕ =>
      if n == 0 then (CallOutcome.clientError "Throttling" : CallOutcome Unit)
      else CallOutcome.clientError "InvalidParameterValue") 2 2).1 1
     "InvalidParameterValue" (by decide) (by decide) (by decide) (by decide)⟩
